import Mathlib

/-
Verification of the folder-synchronization engine of the stik_app repository.
All definitions are shallow embeddings of the Rust code in
src/src-tauri/src/commands/git_share.rs (and the collaborators it calls in
folders.rs and settings.rs), except for the small model of the external git
tool, which follows git's documented behaviour for the handful of subcommands
the engine issues (conflict stages, checkout --theirs, add, show, commit).
-/

deriving instance DecidableEq for Except

namespace GitShare

/-! ## String primitives

Executable counterparts of the Rust `str` operations the engine uses.
They operate on `String.data` (the character list) with structural
recursion, mirroring `str::trim`, `str::contains`, `str::starts_with`,
`str::to_lowercase` (the classification table is pure ASCII, so the
ASCII `Char.toLower` is an exact model here), and `str::is_empty`. -/

/-- Characters that `str::trim` removes from both ends (ASCII whitespace,
which covers every string the engine trims). -/
def trimChars (cs : List Char) : List Char :=
  ((cs.dropWhile Char.isWhitespace).reverse.dropWhile Char.isWhitespace).reverse

/-- Rust `str::trim`. -/
def rust_trim (s : String) : String := String.mk (trimChars s.data)

/-- Rust `str::is_empty`. -/
def str_is_empty (s : String) : Bool := s.data.isEmpty

/-- Whether the first list is a prefix of the second (helper for substring
search). -/
def hasPrefixChars : List Char → List Char → Bool
  | [], _ => true
  | _ :: _, [] => false
  | p :: ps, c :: cs => p == c && hasPrefixChars ps cs

/-- Whether `pat` occurs as a contiguous run inside the list. -/
def hasInfixChars (pat : List Char) : List Char → Bool
  | [] => pat.isEmpty
  | c :: cs => hasPrefixChars pat (c :: cs) || hasInfixChars pat cs

/-- Rust `str::contains(&str)`: substring test. -/
def str_contains (s pat : String) : Bool := hasInfixChars pat.data s.data

/-- Rust `str::contains(char)`. -/
def str_contains_char (s : String) (c : Char) : Bool := s.data.contains c

/-- Rust `str::starts_with(&str)`. -/
def str_starts_with (s pat : String) : Bool := hasPrefixChars pat.data s.data

/-- Rust `str::to_lowercase` (exact on the ASCII classification phrases). -/
def rust_to_lowercase (s : String) : String := String.mk (s.data.map Char.toLower)

/-! ## Subprocess output (git_share.rs: struct GitCommandOutput) -/

/-- Output of one invocation of the external git subprocess:
exit code (None when killed by a signal), lossily decoded stdout/stderr. -/
structure GitCommandOutput where
  statusCode : Option Int
  stdout : String
  stderr : String
deriving DecidableEq

/-- git_share.rs `command_error_message`: prefer trimmed stderr, then trimmed
stdout, else a fixed fallback. -/
def command_error_message (output : GitCommandOutput) : String :=
  let stderrTrimmed := rust_trim output.stderr
  if str_is_empty stderrTrimmed then
    let stdoutTrimmed := rust_trim output.stdout
    if str_is_empty stdoutTrimmed then "unknown git error" else stdoutTrimmed
  else stderrTrimmed

/-- git_share.rs `run_git_success`: exit 0 is Ok, anything else becomes
"Failed to (context): (message)". -/
def run_git_success_model (output : GitCommandOutput) (context : String) :
    Except String Unit :=
  if output.statusCode = some 0 then .ok ()
  else .error ("Failed to " ++ context ++ ": " ++ command_error_message output)

/-! ## Normalization helpers (git_share.rs) -/

/-- git_share.rs `normalized_optional`: trimmed value, None when blank. -/
def normalized_optional (value : String) : Option String :=
  let trimmed := rust_trim value
  if str_is_empty trimmed then none else some trimmed

/-- git_share.rs `normalized_branch`: trimmed branch, "main" when blank. -/
def normalized_branch (branch : String) : String :=
  let trimmed := rust_trim branch
  if str_is_empty trimmed then "main" else trimmed

/-! ## Folder-name validation (folders.rs) -/

/-- folders.rs `is_visible_folder_name`. -/
def is_visible_folder_name (name : String) : Bool :=
  let trimmed := rust_trim name
  !str_is_empty trimmed && !str_starts_with trimmed "."

/-- folders.rs `validate_name`: rejects traversal separators, blank names and
hidden names. -/
def validate_name (name : String) : Except String Unit :=
  if str_contains name ".." || str_contains_char name '/' ||
      str_contains_char name '\\' || str_contains_char name (Char.ofNat 0) then
    .error "Invalid name: must not contain \x27..\x27, \x27/\x27, \x27\\\x27, or null bytes"
  else if str_is_empty (rust_trim name) then
    .error "Name cannot be empty"
  else if !is_visible_folder_name name then
    .error "Invalid name: hidden folders are not supported"
  else .ok ()

/-! ## Configuration (settings.rs: GitSharingSettings) -/

/-- settings.rs `GitSharingSettings`. -/
structure GitSharingSettings where
  enabled : Bool
  shared_folder : String
  remote_url : String
  branch : String
  repository_layout : String
  sync_interval_seconds : Nat
deriving DecidableEq

/-- git_share.rs `validate_git_config_fields`: non-blank folder, remote and
branch, then the folder-name safety validation on the trimmed folder. -/
def validate_git_config_fields (config : GitSharingSettings) : Except String Unit :=
  if str_is_empty (rust_trim config.shared_folder) then
    .error "Pick a folder to link before enabling Git sharing"
  else if str_is_empty (rust_trim config.remote_url) then
    .error "Remote URL is required for Git sharing"
  else if str_is_empty (rust_trim config.branch) then
    .error "Branch cannot be empty"
  else validate_name (rust_trim config.shared_folder)

/-! ## Sync triggers (git_share.rs: enum SyncTrigger) -/

/-- git_share.rs `SyncTrigger`. -/
inductive SyncTrigger where
  | Startup
  | DebouncedSave
  | Periodic
  | Manual
deriving DecidableEq

/-- git_share.rs `SyncTrigger::commit_label`. -/
def SyncTrigger.commit_label : SyncTrigger → String
  | .Startup => "startup"
  | .DebouncedSave => "autosave"
  | .Periodic => "periodic"
  | .Manual => "manual"

/-! ## Runtime status store (git_share.rs: RuntimeStatus, RUNTIME_STATUS) -/

/-- git_share.rs `RuntimeStatus`. -/
structure RuntimeStatus where
  pending_changes : Bool
  syncing : Bool
  last_sync_at : Option String
  last_error : Option String
deriving DecidableEq

/-- State of a std::sync::Mutex cell: the stored value together with the
poison flag that is set when a holder panicked. -/
structure LockState (α : Type) where
  poisoned : Bool
  value : α
deriving DecidableEq

/-- Result of `Mutex::lock`: Ok(guard) on a clean lock, Err(PoisonError)
carrying the same guard when the lock is poisoned. -/
def lock_result {α : Type} (m : LockState α) : Except α α :=
  if m.poisoned then .error m.value else .ok m.value

/-- The `unwrap_or_else(|e| e.into_inner())` recovery applied at every lock
site in git_share.rs: a poisoned lock still yields the stored value. -/
def recover_lock {α : Type} (m : LockState α) : α :=
  match lock_result m with
  | .ok v => v
  | .error v => v

/-- git_share.rs `snapshot_runtime_status`: lock (recovering from poison)
and clone the status. -/
def snapshot_runtime_status (m : LockState RuntimeStatus) : RuntimeStatus :=
  recover_lock m

/-- git_share.rs `update_runtime_status`: lock (recovering from poison) and
apply the mutation to the stored status in place. -/
def update_runtime_status (m : LockState RuntimeStatus)
    (update : RuntimeStatus → RuntimeStatus) : LockState RuntimeStatus :=
  { poisoned := m.poisoned, value := update (recover_lock m) }

/-! ## Local commit identity (git_share.rs: ensure_local_identity) -/

/-- The repository-local `user.name` / `user.email` entries of git's config
store (None when the key was never set). -/
structure IdentityState where
  user_name : Option String
  user_email : Option String
deriving DecidableEq

/-- git_share.rs `git_config_value` applied to a stored config entry:
`git config --get` exits 0 with the value on stdout iff the key is set, and
the engine normalizes the output (trim, blank becomes None). -/
def git_config_value_model (stored : Option String) : Option String :=
  match stored with
  | some v => normalized_optional v
  | none => none

/-- git_share.rs `ensure_local_identity`: set `user.name` to "Stik" only when
it reads as unset, then set `user.email` to "stik@local.invalid" only when it
reads as unset. -/
def ensure_local_identity (st : IdentityState) : IdentityState :=
  let st1 :=
    if (git_config_value_model st.user_name).isNone then
      { st with user_name := some "Stik" }
    else st
  if (git_config_value_model st1.user_email).isNone then
    { st1 with user_email := some "stik@local.invalid" }
  else st1

/-! ## Relative-path manipulation (git_share.rs helpers)

The conflicted paths come from `git diff --name-only`, which prints
slash-separated relative paths.  `last_path_component` / `path_dir_part`
model `std::path::Path::file_name` / the directory part for such paths. -/

/-- The part of a slash-separated path after its last slash (the whole path
when it has no slash). -/
def last_path_component (p : String) : String :=
  String.mk ((p.data.reverse.takeWhile (fun c => c != '/')).reverse)

/-- Everything up to and including the last slash (empty when the path has no
slash). -/
def path_dir_part (p : String) : String :=
  String.mk ((p.data.reverse.dropWhile (fun c => c != '/')).reverse)

/-- Model of Rust `Path::file_name` for the relative paths git reports: the
last component, or None when it is empty (trailing slash), "." or "..". -/
def path_file_name (p : String) : Option String :=
  let n := last_path_component p
  if n = "" then none
  else if n = "." then none
  else if n = ".." then none
  else some n

/-- Model of Rust `PathBuf::set_file_name` for these paths: replace the last
component. -/
def path_set_file_name (p newName : String) : String :=
  path_dir_part p ++ newName

/-- git_share.rs `path_to_git_argument`: backslashes become forward slashes. -/
def path_to_git_argument (p : String) : String :=
  String.mk (p.data.map (fun c => if c = '\\' then '/' else c))

/-- Rust `str::rsplit_once(c)` on character lists: split at the LAST
occurrence of `c`, None when `c` does not occur. -/
def rsplit_once_char (c : Char) : List Char → Option (List Char × List Char)
  | [] => none
  | x :: xs =>
    match rsplit_once_char c xs with
    | some (l, r) => some (x :: l, r)
    | none => if x = c then some ([], xs) else none

/-- git_share.rs `split_file_name`: stem and extension split at the last dot;
a missing dot or an empty stem yields the whole name with empty extension. -/
def split_file_name (fileName : String) : String × String :=
  match rsplit_once_char '.' fileName.data with
  | some (stemChars, extChars) =>
    if stemChars.isEmpty then (fileName, "") else (String.mk stemChars, String.mk extChars)
  | none => (fileName, "")

/-- git_share.rs `conflict_duplicate_relative_path`: insert
"-conflict-(timestamp)" before the extension (or at the end without one),
keeping the directory. -/
def conflict_duplicate_relative_path (relativePath ts : String) :
    Except String String :=
  match path_file_name relativePath with
  | none => .error ("Invalid conflicted file path: " ++ relativePath)
  | some fileName =>
    let stemExt := split_file_name fileName
    let duplicateName :=
      if str_is_empty stemExt.2 then stemExt.1 ++ "-conflict-" ++ ts
      else stemExt.1 ++ "-conflict-" ++ ts ++ "." ++ stemExt.2
    .ok (path_set_file_name relativePath duplicateName)

/-- Total form of `conflict_duplicate_relative_path` for stating theorems
(empty string in the error case, which the theorems exclude). -/
def duplicate_path_raw (p ts : String) : String :=
  match conflict_duplicate_relative_path p ts with
  | .ok d => d
  | .error _ => ""

/-! ## Model of the repository during a merge conflict

State visible to the engine through the git subcommands it issues while
resolving conflicts: the stage-2 ("ours"/local) and stage-3
("theirs"/remote) index blobs of each relative path, the working-tree file
contents, and the set of staged paths.  The three git commands are modelled
after git's documented behaviour: `git show :stage:path` exits 0 with the
blob iff that stage entry exists; `git checkout --theirs -- path` writes the
stage-3 blob to the working tree and fails when there is no stage-3 entry;
`git add -- path` stages the path (collapsing its conflict stages). -/

structure RepoState where
  stage2 : String → Option String
  stage3 : String → Option String
  worktree : String → Option String
  staged : List String

/-- Pointwise update of a path-indexed map. -/
def set_path (f : String → Option String) (k : String) (v : Option String) :
    String → Option String :=
  fun q => if q = k then v else f q

/-- Output of `git show :stage:path`. -/
def git_show_stage (s : RepoState) (stage : Nat) (p : String) : GitCommandOutput :=
  match (if stage = 2 then s.stage2 p else if stage = 3 then s.stage3 p else none) with
  | some content => ⟨some 0, content, ""⟩
  | none => ⟨some 128, "", "fatal: invalid object name"⟩

/-- git_share.rs `read_conflict_blob`: Some(stdout) when `git show` exits 0,
None otherwise. -/
def read_conflict_blob (s : RepoState) (relativePath : String) (stage : Nat) :
    Option String :=
  let out := git_show_stage s stage relativePath
  if out.statusCode = some 0 then some out.stdout else none

/-- Effect and output of `git add -- path`. -/
def git_add_cmd (s : RepoState) (p : String) : RepoState × GitCommandOutput :=
  ({ s with
      staged := p :: s.staged
      stage2 := set_path s.stage2 p none
      stage3 := set_path s.stage3 p none },
    ⟨some 0, "", ""⟩)

/-- Effect and output of `git checkout --theirs -- path`. -/
def git_checkout_theirs_cmd (s : RepoState) (p : String) :
    RepoState × GitCommandOutput :=
  match s.stage3 p with
  | some content =>
    ({ s with worktree := set_path s.worktree p (some content) }, ⟨some 0, "", ""⟩)
  | none => (s, ⟨some 1, "", "error: path does not have their version"⟩)

/-- The content git_share.rs chooses for the duplicate file: the local
(stage 2) blob, else the remote (stage 3) blob, else empty. -/
def duplicate_content_of (s : RepoState) (p : String) : String :=
  match read_conflict_blob s p 2 with
  | some c => c
  | none => (read_conflict_blob s p 3).getD ""

/-- Loop body of git_share.rs `resolve_conflicts_by_duplication` for one
conflicted path: write the chosen content to the duplicate path, stage the
duplicate, check out the remote version at the original path, stage it. -/
def resolve_one_conflict (ts : String) (s : RepoState) (relativePath : String) :
    Except String RepoState :=
  let duplicateContent := duplicate_content_of s relativePath
  match conflict_duplicate_relative_path relativePath ts with
  | .error e => .error e
  | .ok duplicateRelative =>
    let s1 : RepoState :=
      { s with worktree := set_path s.worktree duplicateRelative (some duplicateContent) }
    let duplicateArgument := path_to_git_argument duplicateRelative
    let addDup := git_add_cmd s1 duplicateArgument
    match run_git_success_model addDup.2 "stage duplicate conflict file" with
    | .error e => .error e
    | .ok _ =>
      let co := git_checkout_theirs_cmd addDup.1 relativePath
      match run_git_success_model co.2 "checkout remote conflict version" with
      | .error e => .error e
      | .ok _ =>
        let addOrig := git_add_cmd co.1 relativePath
        match run_git_success_model addOrig.2 "stage resolved conflict file" with
        | .error e => .error e
        | .ok _ => .ok addOrig.1

/-- The for-loop of `resolve_conflicts_by_duplication` over every conflicted
path. -/
def resolve_conflict_list (ts : String) : List String → RepoState → Except String RepoState
  | [], s => .ok s
  | p :: rest, s =>
    match resolve_one_conflict ts s p with
    | .error e => .error e
    | .ok s1 => resolve_conflict_list ts rest s1

/-- The commit message git_share.rs uses to finalize a conflict resolution. -/
def resolve_commit_message : String := "stik: resolve conflicts by keeping both versions"

/-- git_share.rs `resolve_conflicts_by_duplication`: process every conflicted
path, then commit with the fixed message; a failed commit whose message
contains "nothing to commit" is still success.  `commitEnv` gives the
subprocess output of `git commit -m msg` for the message it receives. -/
def resolve_conflicts_by_duplication (commitEnv : String → GitCommandOutput)
    (ts : String) (conflictedFiles : List String) (s : RepoState) :
    Except String RepoState :=
  match resolve_conflict_list ts conflictedFiles s with
  | .error e => .error e
  | .ok s1 =>
    let out := commitEnv resolve_commit_message
    if out.statusCode = some 0 then .ok s1
    else
      let error := command_error_message out
      if str_contains error "nothing to commit" then .ok s1
      else .error ("Failed to finalize conflict resolution: " ++ error)

/-! ## Conflict listing, pull and push (git_share.rs) -/

/-- Split a character list at every occurrence of `c`. -/
def split_on_char (c : Char) : List Char → List (List Char)
  | [] => [[]]
  | x :: xs =>
    let rest := split_on_char c xs
    if x = c then [] :: rest
    else
      match rest with
      | [] => [[x]]
      | g :: gs => (x :: g) :: gs

/-- git_share.rs `list_conflicted_files` applied to the output of
`git diff --name-only --diff-filter=U`: non-zero exit is an error, otherwise
the trimmed non-empty stdout lines. -/
def list_conflicted_files (diffOutput : GitCommandOutput) :
    Except String (List String) :=
  if diffOutput.statusCode = some 0 then
    .ok ((((split_on_char '\n' diffOutput.stdout.data).map
          (fun l => String.mk (trimChars l))).filter
          (fun line => !str_is_empty line)))
  else
    .error ("Failed to list conflicted files: " ++ command_error_message diffOutput)

/-- Environment of one `pull_with_conflict_resolution` call: the outputs the
external tool would produce for the pull, the unrelated-histories retry pull
and the conflicted-files listing, plus the repository state and commit
behaviour the conflict resolver would see. -/
structure PullEnv where
  pullOutput : GitCommandOutput
  retryOutput : GitCommandOutput
  diffOutput : GitCommandOutput
  repo : RepoState
  timestamp : String
  commitEnv : String → GitCommandOutput

/-- git_share.rs `pull_with_conflict_resolution`: pull, classify the failure
text (lowercased) against the fixed phrase table, retry once for unrelated
histories, otherwise resolve conflicts, and fail with a wrapped message when
no conflicted file is listed. -/
def pull_with_conflict_resolution (env : PullEnv) (branch : String) :
    Except String Unit :=
  if env.pullOutput.statusCode = some 0 then .ok ()
  else
    let lowerError := rust_to_lowercase (command_error_message env.pullOutput)
    if str_contains lowerError "couldn\x27t find remote ref" ||
        str_contains lowerError "no such ref was fetched" ||
        str_contains lowerError "not a git repository" then .ok ()
    else if str_contains lowerError "refusing to merge unrelated histories" &&
        (env.retryOutput.statusCode == some 0) then .ok ()
    else
      match list_conflicted_files env.diffOutput with
      | .error e => .error e
      | .ok conflictedFiles =>
        if conflictedFiles.isEmpty then
          .error ("Failed to pull from origin/" ++ branch ++ ": " ++
            command_error_message env.pullOutput)
        else
          match resolve_conflicts_by_duplication env.commitEnv env.timestamp
              conflictedFiles env.repo with
          | .error e => .error e
          | .ok _ => .ok ()

/-- Environment of one `push_branch` call: the first push output, the world
the embedded pull step sees, and the retry push output. -/
structure PushEnv where
  firstPush : GitCommandOutput
  pullEnv : PullEnv
  retryPush : GitCommandOutput

/-- git_share.rs `push_branch`, also counting how many push subprocesses were
invoked: on a non-fast-forward / fetch-first rejection, pull once more and
retry the push exactly once (its failure is wrapped by `run_git_success` with
context "push synced notes to remote"); any other rejection is wrapped with
"Failed to push to origin/(branch)". -/
def push_branch (env : PushEnv) (branch : String) : Except String Unit × Nat :=
  if env.firstPush.statusCode = some 0 then (.ok (), 1)
  else
    let lowerError := rust_to_lowercase (command_error_message env.firstPush)
    if str_contains lowerError "non-fast-forward" ||
        str_contains lowerError "fetch first" then
      match pull_with_conflict_resolution env.pullEnv branch with
      | .error e => (.error e, 1)
      | .ok _ =>
        match run_git_success_model env.retryPush "push synced notes to remote" with
        | .error e => (.error e, 2)
        | .ok _ => (.ok (), 2)
    else
      (.error ("Failed to push to origin/" ++ branch ++ ": " ++
        command_error_message env.firstPush), 1)

/-! ## Commit step (git_share.rs: commit_local_changes) -/

/-- Environment of one `commit_local_changes` call: outputs of `git add -A`,
`git status --porcelain`, and of `git commit -m msg` as a function of the
message. -/
structure CommitEnv where
  addOutput : GitCommandOutput
  statusOutput : GitCommandOutput
  commitOutput : String → GitCommandOutput

/-- The commit message `commit_local_changes` builds from the formatted local
time and the trigger label. -/
def sync_commit_message (now : String) (trigger : SyncTrigger) : String :=
  "stik: sync " ++ now ++ " notes (" ++ trigger.commit_label ++ ")"

/-- git_share.rs `commit_local_changes`: stage everything, skip the commit on
a clean tree, and treat a commit failure containing "nothing to commit" as
success. -/
def commit_local_changes (env : CommitEnv) (now : String) (trigger : SyncTrigger) :
    Except String Unit :=
  match run_git_success_model env.addOutput "stage note changes" with
  | .error e => .error e
  | .ok _ =>
    if env.statusOutput.statusCode ≠ some 0 then
      .error ("Failed to inspect repository status: " ++
        command_error_message env.statusOutput)
    else if str_is_empty (rust_trim env.statusOutput.stdout) then .ok ()
    else
      let commitOut := env.commitOutput (sync_commit_message now trigger)
      if commitOut.statusCode = some 0 then .ok ()
      else
        let error := command_error_message commitOut
        if str_contains error "nothing to commit" then .ok ()
        else .error ("Failed to commit note changes: " ++ error)

/-! ## Sync orchestrator (git_share.rs: run_sync_operation)

The pipeline is modelled over an abstract world providing the result of each
effectful step, and it records a label for every effect it performs, in
order, so that "validation happens before any I/O" is a statement about the
produced effect list. -/

/-- Results the effectful steps of `run_sync_operation` would produce. -/
structure SyncWorld where
  resolveFolder : Except String String
  ensureReady : String → Except String Unit
  commitStep : String → SyncTrigger → Except String Unit
  pullStep : String → String → Except String Unit
  pushStep : String → String → Except String Unit

/-- The fallible body of `run_sync_operation` (the closure between the two
status updates), with the list of steps it attempted. -/
def sync_pipeline (w : SyncWorld) (branch : String) (trigger : SyncTrigger) :
    Except String Unit × List String :=
  match w.resolveFolder with
  | .error e => (.error e, ["linked_folder_path"])
  | .ok repoPath =>
    match w.ensureReady repoPath with
    | .error e => (.error e, ["linked_folder_path", "ensure_repository_ready"])
    | .ok _ =>
      match w.commitStep repoPath trigger with
      | .error e =>
        (.error e, ["linked_folder_path", "ensure_repository_ready",
          "commit_local_changes"])
      | .ok _ =>
        match w.pullStep repoPath branch with
        | .error e =>
          (.error e, ["linked_folder_path", "ensure_repository_ready",
            "commit_local_changes", "pull_with_conflict_resolution"])
        | .ok _ =>
          match w.pushStep repoPath branch with
          | .error e =>
            (.error e, ["linked_folder_path", "ensure_repository_ready",
              "commit_local_changes", "pull_with_conflict_resolution",
              "push_branch"])
          | .ok _ =>
            (.ok (), ["linked_folder_path", "ensure_repository_ready",
              "commit_local_changes", "pull_with_conflict_resolution",
              "push_branch"])

/-- git_share.rs `run_sync_operation`: validate the configuration first and
return immediately on a violation; otherwise acquire the sync mutex, set
syncing and clear the error, run the pipeline, and finalize the status
(syncing off; success records the time, failure records the error).  Returns
the result, the ordered effect labels, and the final runtime status. -/
def run_sync_operation (config : GitSharingSettings) (trigger : SyncTrigger)
    (w : SyncWorld) (s0 : RuntimeStatus) (now : String) :
    Except String Unit × List String × RuntimeStatus :=
  match validate_git_config_fields config with
  | .error e => (.error e, [], s0)
  | .ok _ =>
    let s1 : RuntimeStatus := { s0 with syncing := true, last_error := none }
    let p := sync_pipeline w (normalized_branch config.branch) trigger
    let s2 : RuntimeStatus :=
      match p.1 with
      | .ok _ => { s1 with syncing := false, last_sync_at := some now, last_error := none }
      | .error e => { s1 with syncing := false, last_error := some e }
    (p.1, "acquire_sync_mutex" :: "set_status_syncing" :: p.2 ++ ["finalize_status"], s2)

/-! ## Spec-side duplicate naming (for claim C2)

Independent formalization of the spec sentence "the duplicate path is formed
by inserting -conflict-(timestamp) before the file extension when the file
name has one, and at the end when it has none": the extension is found by
scanning the REVERSED character list for the first dot (i.e. the last dot of
the name), and a name whose stem would be empty counts as having no
extension (hidden-file convention). -/

/-- Extension and stem of a file name per the spec reading: split at the
last dot, no extension when there is no dot or the stem would be empty. -/
def spec_extension_split (name : String) : Option (String × String) :=
  let rev := name.data.reverse
  let extRev := rev.takeWhile (fun c => c != '.')
  if extRev.length = rev.length then none
  else
    let stemRev := rev.drop (extRev.length + 1)
    if stemRev.isEmpty then none
    else some (String.mk stemRev.reverse, String.mk extRev.reverse)

/-- The duplicate file name the spec describes. -/
def spec_duplicate_file_name (name ts : String) : String :=
  match spec_extension_split name with
  | some (stem, ext) => stem ++ "-conflict-" ++ ts ++ "." ++ ext
  | none => name ++ "-conflict-" ++ ts

/-! ## Claim C9: runtime status store survives lock poisoning -/

/-- C9: `update` and `snapshot` on the runtime status store are total (no
panic path) for every lock state, including a poisoned one: the poisoned
lock is recovered and treated as still holding the last written value, so
`snapshot` always returns the stored status and `update` always applies its
mutation to it. -/
theorem c9_lock_recovery :
    ∀ (m : LockState RuntimeStatus) (f : RuntimeStatus → RuntimeStatus),
      snapshot_runtime_status m = m.value ∧
      (update_runtime_status m f).value = f m.value ∧
      snapshot_runtime_status (update_runtime_status m f) = f (snapshot_runtime_status m) := by
  intro m f
  cases m with
  | mk poisoned value =>
    cases poisoned <;>
      simp [snapshot_runtime_status, update_runtime_status, recover_lock, lock_result]

/-! ## Claim C8: local commit identity -/

/-- C8 counterexample: with `user.name` already set to "Alice" and
`user.email` unset, `ensure_local_identity` keeps "Alice" — it does NOT set
both fields to the engine defaults as the claim states (that would make
`user.name` equal "Stik"). -/
theorem c8_identity_counterexample :
    (ensure_local_identity ⟨some "Alice", none⟩).user_name = some "Alice" ∧
    (ensure_local_identity ⟨some "Alice", none⟩).user_name ≠ some "Stik" ∧
    (ensure_local_identity ⟨some "Alice", none⟩).user_email = some "stik@local.invalid" := by
  refine ⟨by decide, by decide, by decide⟩

/-- C8 (amended): `ensure_local_identity` sets each field that reads as unset
to its fixed engine-owned default ("Stik" / "stik@local.invalid"), never
overwrites a field that reads as set, and afterwards both fields read as
set. -/
theorem c8_identity_defaults :
    ∀ st : IdentityState,
      ((git_config_value_model st.user_name).isNone = false →
        (ensure_local_identity st).user_name = st.user_name) ∧
      ((git_config_value_model st.user_name).isNone = true →
        (ensure_local_identity st).user_name = some "Stik") ∧
      ((git_config_value_model st.user_email).isNone = false →
        (ensure_local_identity st).user_email = st.user_email) ∧
      ((git_config_value_model st.user_email).isNone = true →
        (ensure_local_identity st).user_email = some "stik@local.invalid") ∧
      (git_config_value_model (ensure_local_identity st).user_name).isNone = false ∧
      (git_config_value_model (ensure_local_identity st).user_email).isNone = false := by
  intro st
  obtain ⟨n, e⟩ := st
  rcases hn : git_config_value_model n with _ | vn <;>
    rcases he : git_config_value_model e with _ | ve <;>
      simp [ensure_local_identity, hn, he] <;> decide

/-- C8 witness: with `user.name` unset and `user.email` set, the name gets
the default and the email is preserved. -/
theorem c8_identity_defaults_witness :
    (ensure_local_identity ⟨none, some "alice@example.com"⟩).user_name = some "Stik" ∧
    (ensure_local_identity ⟨none, some "alice@example.com"⟩).user_email =
      some "alice@example.com" := by
  have h := c8_identity_defaults ⟨none, some "alice@example.com"⟩
  exact ⟨h.2.1 (by decide), h.2.2.1 (by decide)⟩

/-! ## Claim C6: output-text classification -/

/-- C6 counterexample: a commit failure whose message says "Nothing to
commit" (capital N) is NOT treated as success by `commit_local_changes` —
the nothing-to-commit check is case-sensitive, so the claim that it matches
in any letter case fails. -/
theorem c6_nothing_to_commit_counterexample :
    commit_local_changes
      ⟨⟨some 0, "", ""⟩, ⟨some 0, " M a.md\n", ""⟩,
        fun _ => ⟨some 1, "", "Nothing to commit, working tree clean"⟩⟩
      "2026-02-06 10:15:30" SyncTrigger.Manual =
      .error "Failed to commit note changes: Nothing to commit, working tree clean" := by
  rfl

/-- C6 (amended): the pull classification phrases are matched
case-insensitively (the message is lowercased first), but the
"nothing to commit" check in both the regular commit step and the
conflict-resolution commit step is a case-SENSITIVE substring match: when
the failure text contains the exact lowercase phrase, both steps succeed. -/
theorem c6_classification :
    (∀ (env : CommitEnv) (now : String) (trigger : SyncTrigger),
      env.addOutput.statusCode = some 0 →
      env.statusOutput.statusCode = some 0 →
      str_is_empty (rust_trim env.statusOutput.stdout) = false →
      (env.commitOutput (sync_commit_message now trigger)).statusCode ≠ some 0 →
      str_contains (command_error_message (env.commitOutput (sync_commit_message now trigger)))
        "nothing to commit" = true →
      commit_local_changes env now trigger = .ok ()) ∧
    (∀ (commitEnv : String → GitCommandOutput) (ts : String) (s : RepoState),
      (commitEnv resolve_commit_message).statusCode ≠ some 0 →
      str_contains (command_error_message (commitEnv resolve_commit_message))
        "nothing to commit" = true →
      resolve_conflicts_by_duplication commitEnv ts [] s = .ok s) ∧
    (∀ (env : PullEnv) (branch : String),
      env.pullOutput.statusCode ≠ some 0 →
      str_contains (rust_to_lowercase (command_error_message env.pullOutput))
        "couldn\x27t find remote ref" = true →
      pull_with_conflict_resolution env branch = .ok ()) := by
  refine ⟨?_, ?_, ?_⟩
  · intro env now trigger h1 h2 h3 h4 h5
    simp [commit_local_changes, run_git_success_model, h1, h2, h3, h4, h5]
  · intro commitEnv ts s h1 h2
    simp [resolve_conflicts_by_duplication, resolve_conflict_list, h1, h2]
  · intro env branch h1 h2
    simp [pull_with_conflict_resolution, h1, h2]

/-- C6 witness: concrete runs of all three conjuncts. -/
theorem c6_classification_witness :
    commit_local_changes
      ⟨⟨some 0, "", ""⟩, ⟨some 0, " M a.md\n", ""⟩,
        fun _ => ⟨some 1, "", "nothing to commit, working tree clean"⟩⟩
      "2026-02-06 10:15:30" SyncTrigger.Manual = .ok () ∧
    resolve_conflicts_by_duplication
      (fun _ => ⟨some 1, "", "nothing to commit, working tree clean"⟩) "ts" []
      ⟨fun _ => none, fun _ => none, fun _ => none, []⟩ =
      .ok ⟨fun _ => none, fun _ => none, fun _ => none, []⟩ ∧
    pull_with_conflict_resolution
      ⟨⟨some 1, "", "fatal: couldn\x27t find remote ref main"⟩, ⟨some 1, "", ""⟩,
        ⟨some 0, "", ""⟩, ⟨fun _ => none, fun _ => none, fun _ => none, []⟩, "ts",
        fun _ => ⟨some 0, "", ""⟩⟩ "main" = .ok () := by
  have h := c6_classification
  exact ⟨h.1 _ _ _ (by decide) (by decide) (by decide) (by decide) (by decide),
    h.2.1 _ _ _ (by decide) (by decide),
    h.2.2 _ _ (by decide) (by decide)⟩

/-! ## Claim C5: unresolvable pull failure -/

/-- C5 counterexample: a pull failing with "boom", no transient phrase and no
conflicted file surfaces as "Failed to pull from origin/main: boom" — a
rewrapped message, NOT the original failure verbatim as the claim states. -/
theorem c5_pull_error_counterexample :
    pull_with_conflict_resolution
      ⟨⟨some 1, "", "boom"⟩, ⟨some 1, "", ""⟩, ⟨some 0, "", ""⟩,
        ⟨fun _ => none, fun _ => none, fun _ => none, []⟩, "ts",
        fun _ => ⟨some 0, "", ""⟩⟩ "main" =
      .error "Failed to pull from origin/main: boom" ∧
    (Except.error "Failed to pull from origin/main: boom" : Except String Unit) ≠
      .error "boom" := by
  exact ⟨by rfl, by decide⟩

/-- C5 (amended): when a pull fails, its lowercased error text contains none
of the classified phrases, and the conflicted-file listing is empty, the
surfaced error is the original tool message wrapped with the prefix
"Failed to pull from origin/(branch): ", not the verbatim message. -/
theorem c5_pull_error_wrapped (env : PullEnv) (branch : String)
    (hfail : env.pullOutput.statusCode ≠ some 0)
    (h1 : str_contains (rust_to_lowercase (command_error_message env.pullOutput))
      "couldn\x27t find remote ref" = false)
    (h2 : str_contains (rust_to_lowercase (command_error_message env.pullOutput))
      "no such ref was fetched" = false)
    (h3 : str_contains (rust_to_lowercase (command_error_message env.pullOutput))
      "not a git repository" = false)
    (h4 : str_contains (rust_to_lowercase (command_error_message env.pullOutput))
      "refusing to merge unrelated histories" = false)
    (hlist : list_conflicted_files env.diffOutput = .ok []) :
    pull_with_conflict_resolution env branch =
      .error ("Failed to pull from origin/" ++ branch ++ ": " ++
        command_error_message env.pullOutput) := by
  simp [pull_with_conflict_resolution, hfail, h1, h2, h3, h4, hlist]

/-- C5 witness: a concrete unclassified pull failure with no conflicts. -/
theorem c5_pull_error_wrapped_witness :
    pull_with_conflict_resolution
      ⟨⟨some 1, "", "ugh"⟩, ⟨some 1, "", ""⟩, ⟨some 0, "", ""⟩,
        ⟨fun _ => none, fun _ => none, fun _ => none, []⟩, "ts",
        fun _ => ⟨some 0, "", ""⟩⟩ "dev" =
      .error "Failed to pull from origin/dev: ugh" := by
  exact c5_pull_error_wrapped _ "dev" (by decide) (by decide) (by decide) (by decide)
    (by decide) (by decide)

/-! ## Claim C3: push retry -/

/-- C3 counterexample: a non-fast-forward first push, a successful pull and a
failing retry push surface "Failed to push synced notes to remote: boom",
which is NOT prefixed with "Failed to push to origin/main" as the claim
states. -/
theorem c3_push_retry_counterexample :
    push_branch
      ⟨⟨some 1, "", "rejected non-fast-forward"⟩,
        ⟨⟨some 0, "", ""⟩, ⟨some 1, "", ""⟩, ⟨some 0, "", ""⟩,
          ⟨fun _ => none, fun _ => none, fun _ => none, []⟩, "ts",
          fun _ => ⟨some 0, "", ""⟩⟩,
        ⟨some 1, "", "boom"⟩⟩ "main" =
      (.error "Failed to push synced notes to remote: boom", 2) ∧
    str_starts_with "Failed to push synced notes to remote: boom"
      "Failed to push to origin/main" = false := by
  exact ⟨by rfl, by decide⟩

/-- C3 (amended): a push failure classified as non-fast-forward / fetch-first
triggers exactly one pull+push retry (never more than two push invocations);
if the retry push also fails the surfaced error is
"Failed to push synced notes to remote: (message)"; an unclassified first
failure is fatal with the prefix "Failed to push to origin/(branch)"; a
failing retry pull propagates its own error. -/
theorem c3_push_retry (env : PushEnv) (branch : String)
    (hfail : env.firstPush.statusCode ≠ some 0) :
    (push_branch env branch).2 ≤ 2 ∧
    ((str_contains (rust_to_lowercase (command_error_message env.firstPush))
        "non-fast-forward" = true ∨
      str_contains (rust_to_lowercase (command_error_message env.firstPush))
        "fetch first" = true) →
      (pull_with_conflict_resolution env.pullEnv branch = .ok () →
        (env.retryPush.statusCode = some 0 → push_branch env branch = (.ok (), 2)) ∧
        (env.retryPush.statusCode ≠ some 0 →
          push_branch env branch =
            (.error ("Failed to push synced notes to remote: " ++
              command_error_message env.retryPush), 2))) ∧
      (∀ e, pull_with_conflict_resolution env.pullEnv branch = .error e →
        push_branch env branch = (.error e, 1))) ∧
    ((str_contains (rust_to_lowercase (command_error_message env.firstPush))
        "non-fast-forward" = false ∧
      str_contains (rust_to_lowercase (command_error_message env.firstPush))
        "fetch first" = false) →
      push_branch env branch =
        (.error ("Failed to push to origin/" ++ branch ++ ": " ++
          command_error_message env.firstPush), 1)) := by
  refine ⟨?_, ?_, ?_⟩
  · rcases Bool.eq_false_or_eq_true
        (str_contains (rust_to_lowercase (command_error_message env.firstPush))
            "non-fast-forward" ||
          str_contains (rust_to_lowercase (command_error_message env.firstPush))
            "fetch first") with hcl | hcl
    · cases hpull : pull_with_conflict_resolution env.pullEnv branch with
      | error e => simp [push_branch, hfail, hcl, hpull]
      | ok u =>
        cases u
        by_cases hr : env.retryPush.statusCode = some 0 <;>
          simp [push_branch, hfail, hcl, hpull, run_git_success_model, hr]
    · simp [push_branch, hfail, hcl]
  · intro hclass
    have hcl : (str_contains (rust_to_lowercase (command_error_message env.firstPush))
        "non-fast-forward" ||
      str_contains (rust_to_lowercase (command_error_message env.firstPush))
        "fetch first") = true := by
      rcases hclass with h | h <;> simp [h]
    refine ⟨?_, ?_⟩
    · intro hpull
      refine ⟨?_, ?_⟩
      · intro hretry
        simp [push_branch, hfail, hcl, hpull, run_git_success_model, hretry]
      · intro hretry
        simp [push_branch, hfail, hcl, hpull, run_git_success_model, hretry]
    · intro e hpull
      simp [push_branch, hfail, hcl, hpull]
  · intro hclass
    simp [push_branch, hfail, hclass.1, hclass.2]

/-- C3 witness: classified first failure, successful pull, successful retry
push — the pipeline succeeds after exactly two push invocations. -/
theorem c3_push_retry_witness :
    push_branch
      ⟨⟨some 1, "", "! [rejected] main (fetch first)"⟩,
        ⟨⟨some 0, "", ""⟩, ⟨some 1, "", ""⟩, ⟨some 0, "", ""⟩,
          ⟨fun _ => none, fun _ => none, fun _ => none, []⟩, "ts",
          fun _ => ⟨some 0, "", ""⟩⟩,
        ⟨some 0, "", ""⟩⟩ "main" = (.ok (), 2) := by
  have h := c3_push_retry
    ⟨⟨some 1, "", "! [rejected] main (fetch first)"⟩,
      ⟨⟨some 0, "", ""⟩, ⟨some 1, "", ""⟩, ⟨some 0, "", ""⟩,
        ⟨fun _ => none, fun _ => none, fun _ => none, []⟩, "ts",
        fun _ => ⟨some 0, "", ""⟩⟩,
      ⟨some 0, "", ""⟩⟩ "main" (by decide)
  exact ((h.2.1 (Or.inr (by decide))).1 (by rfl)).1 (by decide)

/-! ## Claim C4: validation before any effect -/

/-- C4: a configuration rejected by `validate_git_config_fields` (blank
folder, remote or branch, or an unsafe folder name) makes
`run_sync_operation` return that ConfigurationError with an EMPTY effect
trace — no mutex acquisition, no status update, no filesystem or subprocess
step — and the runtime status unchanged. -/
theorem c4_validation_before_effects (config : GitSharingSettings)
    (trigger : SyncTrigger) (w : SyncWorld) (s0 : RuntimeStatus) (now : String)
    (e : String) (h : validate_git_config_fields config = .error e) :
    run_sync_operation config trigger w s0 now = (.error e, [], s0) := by
  simp [run_sync_operation, h]

/-- C4 witness: a configuration whose folder is blank after trimming. -/
theorem c4_validation_before_effects_witness :
    run_sync_operation ⟨true, "  ", "https://example.com/team.git", "main", "folder_root", 300⟩
      SyncTrigger.Manual
      ⟨.ok "repo", fun _ => .ok (), fun _ _ => .ok (), fun _ _ => .ok (), fun _ _ => .ok ()⟩
      ⟨false, false, none, none⟩ "2026-02-06T10:15:30" =
      (.error "Pick a folder to link before enabling Git sharing", [],
        ⟨false, false, none, none⟩) := by
  exact c4_validation_before_effects _ _ _ _ _ _ (by decide)

/-! ## Claim C7: status finalization -/

/-- C7 counterexample: when validation fails, `run_sync_operation` finishes
with an error but the runtime status is untouched — `syncing` can remain
true and the error is NOT recorded in `last_error`, contradicting the claim
that this holds whenever the function finishes. -/
theorem c7_validation_failure_counterexample :
    (run_sync_operation ⟨true, "", "https://example.com/x.git", "main", "folder_root", 300⟩
        SyncTrigger.Manual
        ⟨.ok "repo", fun _ => .ok (), fun _ _ => .ok (), fun _ _ => .ok (), fun _ _ => .ok ()⟩
        ⟨false, true, none, none⟩ "2026-02-06T10:15:30").1 =
      .error "Pick a folder to link before enabling Git sharing" ∧
    (run_sync_operation ⟨true, "", "https://example.com/x.git", "main", "folder_root", 300⟩
        SyncTrigger.Manual
        ⟨.ok "repo", fun _ => .ok (), fun _ _ => .ok (), fun _ _ => .ok (), fun _ _ => .ok ()⟩
        ⟨false, true, none, none⟩ "2026-02-06T10:15:30").2.2.syncing = true ∧
    (run_sync_operation ⟨true, "", "https://example.com/x.git", "main", "folder_root", 300⟩
        SyncTrigger.Manual
        ⟨.ok "repo", fun _ => .ok (), fun _ _ => .ok (), fun _ _ => .ok (), fun _ _ => .ok ()⟩
        ⟨false, true, none, none⟩ "2026-02-06T10:15:30").2.2.last_error = none := by
  exact ⟨by rfl, by rfl, by rfl⟩

/-- C7 (amended): once validation has passed, whenever `run_sync_operation`
finishes the runtime status has `syncing = false` on both the success and
the failure path; on failure the error is recorded in `last_error` and
`last_sync_at` is unchanged; on success `last_sync_at` is set to the current
time and `last_error` is cleared.  (A validation failure returns before the
status is touched.) -/
theorem c7_status_finalization (config : GitSharingSettings) (trigger : SyncTrigger)
    (w : SyncWorld) (s0 : RuntimeStatus) (now : String)
    (h : validate_git_config_fields config = .ok ()) :
    (run_sync_operation config trigger w s0 now).2.2.syncing = false ∧
    (∀ e, (run_sync_operation config trigger w s0 now).1 = .error e →
      (run_sync_operation config trigger w s0 now).2.2.last_error = some e ∧
      (run_sync_operation config trigger w s0 now).2.2.last_sync_at = s0.last_sync_at) ∧
    ((run_sync_operation config trigger w s0 now).1 = .ok () →
      (run_sync_operation config trigger w s0 now).2.2.last_sync_at = some now ∧
      (run_sync_operation config trigger w s0 now).2.2.last_error = none) := by
  cases hp : (sync_pipeline w (normalized_branch config.branch) trigger).1 with
  | error e => simp [run_sync_operation, h, hp]
  | ok u =>
    cases u
    simp [run_sync_operation, h, hp]

/-- C7 witness: a valid configuration with an all-successful pipeline records
the sync time and clears the error. -/
theorem c7_status_finalization_witness :
    (run_sync_operation ⟨true, "Inbox", "https://example.com/team.git", "main", "folder_root", 300⟩
        SyncTrigger.Manual
        ⟨.ok "repo", fun _ => .ok (), fun _ _ => .ok (), fun _ _ => .ok (), fun _ _ => .ok ()⟩
        ⟨false, false, none, some "old"⟩ "2026-02-06T10:15:30").2.2.syncing = false ∧
    (run_sync_operation ⟨true, "Inbox", "https://example.com/team.git", "main", "folder_root", 300⟩
        SyncTrigger.Manual
        ⟨.ok "repo", fun _ => .ok (), fun _ _ => .ok (), fun _ _ => .ok (), fun _ _ => .ok ()⟩
        ⟨false, false, none, some "old"⟩ "2026-02-06T10:15:30").2.2.last_sync_at =
      some "2026-02-06T10:15:30" := by
  have h := c7_status_finalization
    ⟨true, "Inbox", "https://example.com/team.git", "main", "folder_root", 300⟩
    SyncTrigger.Manual
    ⟨.ok "repo", fun _ => .ok (), fun _ _ => .ok (), fun _ _ => .ok (), fun _ _ => .ok ()⟩
    ⟨false, false, none, some "old"⟩ "2026-02-06T10:15:30" (by decide)
  exact ⟨h.1, (h.2.2 (by rfl)).1⟩

/-! ## Helper lemmas for the conflict resolver -/

theorem set_path_self (f : String → Option String) (k : String) (v : Option String) :
    set_path f k v k = v := by
  simp [set_path]

theorem set_path_other (f : String → Option String) (k : String) (v : Option String)
    (q : String) (h : q ≠ k) : set_path f k v q = f q := by
  simp [set_path, h]

theorem read_conflict_blob_two (s : RepoState) (p : String) :
    read_conflict_blob s p 2 = s.stage2 p := by
  cases h : s.stage2 p <;> simp [read_conflict_blob, git_show_stage, h]

theorem read_conflict_blob_three (s : RepoState) (p : String) :
    read_conflict_blob s p 3 = s.stage3 p := by
  cases h : s.stage3 p <;> simp [read_conflict_blob, git_show_stage, h]

theorem duplicate_content_of_eq (s : RepoState) (p : String) :
    duplicate_content_of s p =
      match s.stage2 p with
      | some c => c
      | none => (s.stage3 p).getD "" := by
  cases h2 : s.stage2 p <;>
    simp [duplicate_content_of, read_conflict_blob_two, read_conflict_blob_three, h2]

theorem conflict_duplicate_ok (p ts : String) (h : (path_file_name p).isSome = true) :
    conflict_duplicate_relative_path p ts = .ok (duplicate_path_raw p ts) := by
  rcases ho : path_file_name p with _ | n
  · rw [ho] at h
    simp at h
  · simp [conflict_duplicate_relative_path, duplicate_path_raw, ho]

/-- One loop iteration of the conflict resolver: the original path receives
the remote (stage 3) blob, the duplicate path receives the chosen duplicate
content, both are staged, and every other path is untouched. -/
theorem resolve_one_spec (ts : String) (s : RepoState) (p : String)
    (h3 : (s.stage3 p).isSome = true)
    (hfn : (path_file_name p).isSome = true)
    (hdup : duplicate_path_raw p ts ≠ p)
    (hpta : path_to_git_argument (duplicate_path_raw p ts) = duplicate_path_raw p ts) :
    ∃ sF, resolve_one_conflict ts s p = .ok sF ∧
      sF.worktree p = s.stage3 p ∧
      sF.worktree (duplicate_path_raw p ts) = some (duplicate_content_of s p) ∧
      p ∈ sF.staged ∧
      duplicate_path_raw p ts ∈ sF.staged ∧
      (∀ q, q ≠ p → q ≠ duplicate_path_raw p ts →
        sF.stage2 q = s.stage2 q ∧ sF.stage3 q = s.stage3 q ∧
          sF.worktree q = s.worktree q) ∧
      (∀ q, q ∈ s.staged → q ∈ sF.staged) := by
  obtain ⟨c3, hc3⟩ := Option.isSome_iff_exists.mp h3
  have hne : p ≠ duplicate_path_raw p ts := fun h => hdup h.symm
  have hcd := conflict_duplicate_ok p ts hfn
  refine ⟨⟨set_path (set_path s.stage2 (duplicate_path_raw p ts) none) p none,
      set_path (set_path s.stage3 (duplicate_path_raw p ts) none) p none,
      set_path (set_path s.worktree (duplicate_path_raw p ts)
        (some (duplicate_content_of s p))) p (some c3),
      p :: duplicate_path_raw p ts :: s.staged⟩, ?_, ?_, ?_, ?_, ?_, ?_, ?_⟩
  · unfold resolve_one_conflict
    rw [hcd]
    simp only [hpta, git_add_cmd, git_checkout_theirs_cmd, run_git_success_model]
    rw [set_path_other s.stage3 (duplicate_path_raw p ts) none p hne, hc3]
    simp
  · simp [set_path, hc3]
  · simp [set_path, hdup]
  · exact List.mem_cons_self _ _
  · exact List.mem_cons_of_mem _ (List.mem_cons_self _ _)
  · intro q hqp hqd
    refine ⟨?_, ?_, ?_⟩ <;> simp [set_path, hqp, hqd]
  · intro q hq
    exact List.mem_cons_of_mem _ (List.mem_cons_of_mem _ hq)

theorem duplicate_content_congr (s1 s : RepoState) (p : String)
    (h2 : s1.stage2 p = s.stage2 p) (h3 : s1.stage3 p = s.stage3 p) :
    duplicate_content_of s1 p = duplicate_content_of s p := by
  rw [duplicate_content_of_eq, duplicate_content_of_eq, h2, h3]

/-- The whole conflict loop: every conflicted path ends with the remote blob
at the original path and the chosen content at its duplicate, both staged;
unrelated paths are untouched and the staged set only grows. -/
theorem resolve_list_spec (ts : String) :
    ∀ (files : List String) (s : RepoState),
      (∀ p ∈ files, (s.stage3 p).isSome = true) →
      (∀ p ∈ files, (path_file_name p).isSome = true) →
      (∀ p ∈ files, path_to_git_argument (duplicate_path_raw p ts) = duplicate_path_raw p ts) →
      (files ++ files.map (fun p => duplicate_path_raw p ts)).Nodup →
      ∃ sF, resolve_conflict_list ts files s = .ok sF ∧
        (∀ p ∈ files,
          sF.worktree p = s.stage3 p ∧
          sF.worktree (duplicate_path_raw p ts) = some (duplicate_content_of s p) ∧
          p ∈ sF.staged ∧ duplicate_path_raw p ts ∈ sF.staged) ∧
        (∀ q, q ∉ files → (∀ p ∈ files, q ≠ duplicate_path_raw p ts) →
          sF.stage2 q = s.stage2 q ∧ sF.stage3 q = s.stage3 q ∧
            sF.worktree q = s.worktree q) ∧
        (∀ q, q ∈ s.staged → q ∈ sF.staged) := by
  intro files
  induction files with
  | nil =>
    intro s _ _ _ _
    exact ⟨s, rfl, by simp, fun q _ _ => ⟨rfl, rfl, rfl⟩, fun q hq => hq⟩
  | cons p rest ih =>
    intro s h3 hfn hpta hnd
    have hnd' : (p :: (rest ++ (duplicate_path_raw p ts :: rest.map
        (fun r => duplicate_path_raw r ts)))).Nodup := hnd
    obtain ⟨hp_notin, hnd2⟩ := List.nodup_cons.mp hnd'
    have hp_rest : p ∉ rest := fun h => hp_notin (List.mem_append_left _ h)
    have hp_dup : p ≠ duplicate_path_raw p ts := fun h =>
      hp_notin (List.mem_append_right _ (h ▸ List.mem_cons_self _ _))
    have hp_dups : ∀ r ∈ rest, p ≠ duplicate_path_raw r ts := by
      intro r hr h
      exact hp_notin (List.mem_append_right _
        (List.mem_cons_of_mem _ (h ▸ List.mem_map_of_mem _ hr)))
    obtain ⟨hrest_nd, hcons_nd, hdisj⟩ := List.nodup_append.mp hnd2
    obtain ⟨hdp_notin_map, hmap_nd⟩ := List.nodup_cons.mp hcons_nd
    have hdp_rest : duplicate_path_raw p ts ∉ rest := by
      intro h
      exact hdisj h (List.mem_cons_self _ _)
    have hdp_dups : ∀ r ∈ rest, duplicate_path_raw p ts ≠ duplicate_path_raw r ts := by
      intro r hr h
      exact hdp_notin_map (h ▸ List.mem_map_of_mem _ hr)
    have hdisj2 : rest.Disjoint (rest.map (fun r => duplicate_path_raw r ts)) := by
      intro a ha hma
      exact hdisj ha (List.mem_cons_of_mem _ hma)
    have hnd_rest : (rest ++ rest.map (fun r => duplicate_path_raw r ts)).Nodup :=
      List.nodup_append.mpr ⟨hrest_nd, hmap_nd, hdisj2⟩
    obtain ⟨s1, heq1, hw_p, hw_d, hst_p, hst_d, hframe1, hmono1⟩ :=
      resolve_one_spec ts s p (h3 p (List.mem_cons_self _ _))
        (hfn p (List.mem_cons_self _ _)) (fun h => hp_dup h.symm)
        (hpta p (List.mem_cons_self _ _))
    have hrest_frame : ∀ r ∈ rest,
        s1.stage2 r = s.stage2 r ∧ s1.stage3 r = s.stage3 r ∧
          s1.worktree r = s.worktree r := by
      intro r hr
      exact hframe1 r (fun h => hp_rest (h ▸ hr))
        (fun h => hdp_rest (h ▸ hr))
    obtain ⟨sF, heq2, hmain2, hframe2, hmono2⟩ := ih s1
      (fun r hr => by rw [(hrest_frame r hr).2.1]; exact h3 r (List.mem_cons_of_mem _ hr))
      (fun r hr => hfn r (List.mem_cons_of_mem _ hr))
      (fun r hr => hpta r (List.mem_cons_of_mem _ hr))
      hnd_rest
    refine ⟨sF, ?_, ?_, ?_, ?_⟩
    · simp [resolve_conflict_list, heq1, heq2]
    · intro q hq
      rcases List.mem_cons.mp hq with hq | hq
      · subst hq
        have hfr_q := hframe2 q hp_rest hp_dups
        have hfr_d := hframe2 (duplicate_path_raw q ts) hdp_rest hdp_dups
        exact ⟨hfr_q.2.2.trans hw_p, hfr_d.2.2.trans hw_d,
          hmono2 q hst_p, hmono2 _ hst_d⟩
      · obtain ⟨hm1, hm2, hm3, hm4⟩ := hmain2 q hq
        have hfr := hrest_frame q hq
        refine ⟨?_, ?_, hm3, hm4⟩
        · rw [hm1, hfr.2.1]
        · rw [hm2, duplicate_content_congr s1 s q hfr.1 hfr.2.1]
    · intro q hq hqd
      have hq_rest : q ∉ rest := fun h => hq (List.mem_cons_of_mem _ h)
      have hq_p : q ≠ p := fun h => hq (h ▸ List.mem_cons_self _ _)
      have hq_dp : q ≠ duplicate_path_raw p ts := hqd p (List.mem_cons_self _ _)
      have hq_dups : ∀ r ∈ rest, q ≠ duplicate_path_raw r ts := fun r hr =>
        hqd r (List.mem_cons_of_mem _ hr)
      have hfr2 := hframe2 q hq_rest hq_dups
      have hfr1 := hframe1 q hq_p hq_dp
      exact ⟨hfr2.1.trans hfr1.1, hfr2.2.1.trans hfr1.2.1, hfr2.2.2.trans hfr1.2.2⟩
    · intro q hq
      exact hmono2 q (hmono1 q hq)

/-! ## Claim C1: conflict resolution outcome -/

/-- C1 counterexample: the resolution commit message is
"stik: resolve conflicts by keeping both versions", not the claimed
"resolve conflicts by keeping both versions": an environment that accepts
exactly the claimed message rejects the commit the code actually issues. -/
theorem c1_commit_message_counterexample :
    resolve_commit_message ≠ "resolve conflicts by keeping both versions" ∧
    resolve_conflicts_by_duplication
      (fun m => if m = "resolve conflicts by keeping both versions" then ⟨some 0, "", ""⟩
        else ⟨some 1, "", "wrong message"⟩)
      "ts" [] ⟨fun _ => none, fun _ => none, fun _ => none, []⟩ =
      .error "Failed to finalize conflict resolution: wrong message" := by
  exact ⟨by decide, by rfl⟩

/-- C1 (amended): for every conflicted path with a readable remote (stage 3)
blob — as both-sides-modified conflicts have — the canonical path ends up
holding the remote blob and the duplicate path the local (stage 2) blob, or
the remote blob when the local one is unreadable; both are staged; and the
resolution is committed with the fixed message
"stik: resolve conflicts by keeping both versions", where a
"nothing to commit" outcome counts as success.  (A path with no remote
stage aborts resolution at the checkout step instead, so it is outside this
statement; further hypotheses: every path has a valid file name and the
paths and their duplicates do not collide.) -/
theorem c1_conflict_resolution (commitEnv : String → GitCommandOutput) (ts : String)
    (files : List String) (s : RepoState)
    (h3 : ∀ p ∈ files, (s.stage3 p).isSome = true)
    (hfn : ∀ p ∈ files, (path_file_name p).isSome = true)
    (hpta : ∀ p ∈ files, path_to_git_argument (duplicate_path_raw p ts) = duplicate_path_raw p ts)
    (hnd : (files ++ files.map (fun p => duplicate_path_raw p ts)).Nodup)
    (hcommit : (commitEnv resolve_commit_message).statusCode = some 0 ∨
      str_contains (command_error_message (commitEnv resolve_commit_message))
        "nothing to commit" = true) :
    resolve_commit_message = "stik: resolve conflicts by keeping both versions" ∧
    ∃ sF, resolve_conflicts_by_duplication commitEnv ts files s = .ok sF ∧
      ∀ p ∈ files,
        sF.worktree p = s.stage3 p ∧
        sF.worktree (duplicate_path_raw p ts) =
          some (match s.stage2 p with
            | some c => c
            | none => (s.stage3 p).getD "") ∧
        p ∈ sF.staged ∧ duplicate_path_raw p ts ∈ sF.staged := by
  obtain ⟨sF, heq, hmain, _, _⟩ := resolve_list_spec ts files s h3 hfn hpta hnd
  refine ⟨rfl, sF, ?_, ?_⟩
  · unfold resolve_conflicts_by_duplication
    rw [heq]
    rcases hcommit with hc | hc
    · simp [hc]
    · by_cases h0 : (commitEnv resolve_commit_message).statusCode = some 0 <;>
        simp [h0, hc]
  · intro p hp
    obtain ⟨w1, w2, st1, st2⟩ := hmain p hp
    exact ⟨w1, by rw [w2, duplicate_content_of_eq], st1, st2⟩

/-- C1 witness: two conflicted paths, one with both stages present and one
whose local stage is unreadable (falls back to the remote blob). -/
theorem c1_conflict_resolution_witness :
    resolve_commit_message = "stik: resolve conflicts by keeping both versions" ∧
    ∃ sF, resolve_conflicts_by_duplication (fun _ => ⟨some 0, "", ""⟩)
        "20260206-220000" ["Inbox/idea.md", "plan"]
        ⟨fun p => if p = "Inbox/idea.md" then some "local idea" else none,
          fun p => if p = "Inbox/idea.md" then some "remote idea"
            else if p = "plan" then some "remote plan" else none,
          fun _ => none, []⟩ = .ok sF ∧
      ∀ p ∈ ["Inbox/idea.md", "plan"],
        sF.worktree p =
          (⟨fun p => if p = "Inbox/idea.md" then some "local idea" else none,
            fun p => if p = "Inbox/idea.md" then some "remote idea"
              else if p = "plan" then some "remote plan" else none,
            fun _ => none, []⟩ : RepoState).stage3 p ∧
        sF.worktree (duplicate_path_raw p "20260206-220000") =
          some (match (⟨fun p => if p = "Inbox/idea.md" then some "local idea" else none,
            fun p => if p = "Inbox/idea.md" then some "remote idea"
              else if p = "plan" then some "remote plan" else none,
            fun _ => none, []⟩ : RepoState).stage2 p with
            | some c => c
            | none => ((⟨fun p => if p = "Inbox/idea.md" then some "local idea" else none,
                fun p => if p = "Inbox/idea.md" then some "remote idea"
                  else if p = "plan" then some "remote plan" else none,
                fun _ => none, []⟩ : RepoState).stage3 p).getD "") ∧
        p ∈ sF.staged ∧ duplicate_path_raw p "20260206-220000" ∈ sF.staged := by
  exact c1_conflict_resolution (fun _ => ⟨some 0, "", ""⟩) "20260206-220000"
    ["Inbox/idea.md", "plan"] _ (by decide) (by decide) (by decide) (by decide)
    (Or.inl (by decide))

/-! ## Claim C10: both conflict blobs unreadable -/

/-- C10 counterexample: when neither stage of a conflicted path is readable,
conflict resolution DOES fail for that path (and processing does not
continue to the remaining paths): the failure comes from checking out the
missing remote version. -/
theorem c10_unreadable_counterexample :
    resolve_conflicts_by_duplication (fun _ => ⟨some 0, "", ""⟩) "20260206-220000"
      ["notes.md", "todo.md"]
      ⟨fun p => if p = "todo.md" then some "local" else none,
        fun p => if p = "todo.md" then some "remote" else none,
        fun _ => none, []⟩ =
      .error "Failed to checkout remote conflict version: error: path does not have their version" := by
  rfl

/-- C10 (amended): when neither the stage-2 nor the stage-3 blob of a
conflicted path can be read, the blob reads themselves do not fail the
resolution — the duplicate content falls back to empty — but the loop then
fails at checking out the missing remote version of the original path, and
that checkout error aborts the resolution. -/
theorem c10_unreadable_blobs (s : RepoState) (p ts : String)
    (h2 : s.stage2 p = none) (h3 : s.stage3 p = none)
    (hfn : (path_file_name p).isSome = true) :
    duplicate_content_of s p = "" ∧
    resolve_one_conflict ts s p =
      .error "Failed to checkout remote conflict version: error: path does not have their version" := by
  have hcd := conflict_duplicate_ok p ts hfn
  constructor
  · rw [duplicate_content_of_eq, h2, h3]
    rfl
  · unfold resolve_one_conflict
    rw [hcd]
    simp only [git_add_cmd, git_checkout_theirs_cmd, run_git_success_model]
    have hs3 : set_path s.stage3
        (path_to_git_argument (duplicate_path_raw p ts)) none p = none := by
      unfold set_path
      rw [h3]
      simp
    rw [hs3]
    simp
    decide

/-- C10 witness: a concrete path with neither stage readable. -/
theorem c10_unreadable_blobs_witness :
    duplicate_content_of ⟨fun _ => none, fun _ => none, fun _ => none, []⟩ "notes.md" = "" ∧
    resolve_one_conflict "20260206-220000"
      ⟨fun _ => none, fun _ => none, fun _ => none, []⟩ "notes.md" =
      .error "Failed to checkout remote conflict version: error: path does not have their version" := by
  exact c10_unreadable_blobs _ "notes.md" "20260206-220000" rfl rfl (by decide)

/-! ## Helper lemmas for claim C2 (duplicate-path naming) -/

theorem rsplit_none (c : Char) : ∀ cs : List Char, c ∉ cs → rsplit_once_char c cs = none := by
  intro cs
  induction cs with
  | nil => intro _; rfl
  | cons x xs ih =>
    intro h
    rw [List.mem_cons, not_or] at h
    obtain ⟨h1, h2⟩ := h
    have hx : ¬ x = c := fun he => h1 he.symm
    simp [rsplit_once_char, ih h2, hx]

theorem rsplit_last (c : Char) (r : List Char) (hr : c ∉ r) :
    ∀ l : List Char, rsplit_once_char c (l ++ c :: r) = some (l, r) := by
  intro l
  induction l with
  | nil => simp [rsplit_once_char, rsplit_none c r hr]
  | cons x xs ih => simp [rsplit_once_char, ih]

theorem isEmpty_eq_false_of_ne_nil (l : List Char) (h : l ≠ []) : l.isEmpty = false := by
  cases l with
  | nil => exact absurd rfl h
  | cons a as => rfl

theorem dropWhile_head_false (p : Char → Bool) :
    ∀ (l : List Char) (x : Char) (xs : List Char),
      l.dropWhile p = x :: xs → p x = false := by
  intro l
  induction l with
  | nil => intro x xs h; simp [List.dropWhile] at h
  | cons a as ih =>
    intro x xs h
    rw [List.dropWhile_cons] at h
    by_cases ha : p a = true
    · exact ih x xs (by rwa [if_pos ha] at h)
    · rw [if_neg ha] at h
      cases h
      exact Bool.eq_false_iff.mpr ha

theorem takeWhile_all_append (q : Char → Bool) (c : Char) (hc : q c = false)
    (rest : List Char) :
    ∀ E : List Char, (∀ x ∈ E, q x = true) →
      (E ++ c :: rest).takeWhile q = E := by
  intro E
  induction E with
  | nil =>
    intro _
    simp [List.takeWhile_cons, hc]
  | cons a as ih =>
    intro h
    have ha : q a = true := h a (List.mem_cons_self _ _)
    simp [List.takeWhile_cons, ha, ih (fun x hx => h x (List.mem_cons_of_mem _ hx))]

/-- The code's stem/extension split agrees with the spec-side reading of
"the file extension" for every name that does not end in a dot. -/
theorem duplicate_name_eq_spec (name ts : String) (hne : name.data.getLast? ≠ some '.') :
    (if str_is_empty (split_file_name name).2
      then (split_file_name name).1 ++ "-conflict-" ++ ts
      else (split_file_name name).1 ++ "-conflict-" ++ ts ++ "." ++ (split_file_name name).2) =
    spec_duplicate_file_name name ts := by
  by_cases hd : '.' ∈ name.data
  · obtain ⟨E, rest, hqE, hrev⟩ :
        ∃ E rest, (∀ x ∈ E, (x != '.') = true) ∧
          name.data.reverse = E ++ '.' :: rest := by
      have hsplit := List.takeWhile_append_dropWhile (fun c => c != '.') name.data.reverse
      cases hdw : name.data.reverse.dropWhile (fun c => c != '.') with
      | nil =>
        exfalso
        rw [hdw, List.append_nil] at hsplit
        have hm : ('.' : Char) ∈ name.data.reverse := List.mem_reverse.mpr hd
        have hp := List.mem_takeWhile_imp (hsplit.symm ▸ hm)
        simp at hp
      | cons x rest =>
        have hx : x = '.' := by
          have := dropWhile_head_false (fun c => c != '.') name.data.reverse x rest hdw
          simpa using this
        subst hx
        rw [hdw] at hsplit
        refine ⟨_, rest, ?_, hsplit.symm⟩
        intro x hx
        have := List.mem_takeWhile_imp hx
        simpa using this
    have hdata : name.data = rest.reverse ++ '.' :: E.reverse := by
      have h1 := congrArg List.reverse hrev
      rw [List.reverse_reverse] at h1
      rw [h1, List.reverse_append, List.reverse_cons, List.append_assoc]
      rfl
    have hext_ne : '.' ∉ E.reverse := by
      intro hmem
      have := hqE '.' (List.mem_reverse.mp hmem)
      simp at this
    have hrsplit : rsplit_once_char '.' name.data = some (rest.reverse, E.reverse) := by
      rw [hdata]
      exact rsplit_last '.' _ hext_ne _
    have hTW : name.data.reverse.takeWhile (fun c => c != '.') = E := by
      rw [hrev]
      exact takeWhile_all_append _ '.' (by simp) rest E hqE
    have hEne : E ≠ [] := by
      intro h0
      rw [h0, List.nil_append] at hrev
      apply hne
      rw [← List.head?_reverse, hrev]
      rfl
    have hcond : ¬ (E.length = name.data.reverse.length) := by
      rw [hrev]
      simp only [List.length_append, List.length_cons]
      omega
    have hdrop : name.data.reverse.drop (E.length + 1) = rest := by
      rw [hrev, List.append_cons]
      have hl : E.length + 1 = (E ++ ['.']).length := by simp
      rw [hl]
      exact List.drop_left _ _
    unfold split_file_name spec_duplicate_file_name spec_extension_split
    rw [hrsplit]
    simp only
    rw [hTW, if_neg hcond, hdrop]
    cases rest with
    | nil =>
      have h0 : str_is_empty "" = true := rfl
      simp [h0]
    | cons z zs =>
      have hstem_ne : (z :: zs).reverse.isEmpty = false :=
        isEmpty_eq_false_of_ne_nil _ (by simp)
      have hext_rev_ne : E.reverse.isEmpty = false :=
        isEmpty_eq_false_of_ne_nil _ (by simpa using hEne)
      simp [str_is_empty, hstem_ne, hext_rev_ne]
  · have h1 : rsplit_once_char '.' name.data = none := rsplit_none _ _ hd
    have h2 : name.data.reverse.takeWhile (fun c => c != '.') = name.data.reverse :=
      List.takeWhile_eq_self_iff.mpr (by
        intro x hx
        have : x ∈ name.data := List.mem_reverse.mp hx
        have hxne : x ≠ '.' := fun he => hd (he ▸ this)
        simpa using hxne)
    rw [split_file_name, h1]
    simp only
    rw [spec_duplicate_file_name, spec_extension_split]
    simp [h2, str_is_empty]

/-! ## Claim C2: duplicate-path naming -/

/-- C2: for every conflicted relative path (with a well-formed file name not
ending in a dot) and timestamp, the duplicate path keeps the directory and
carries the spec-side duplicate file name — "-conflict-(timestamp)" inserted
before the extension when the name has one and at the end when it has none —
and in particular the two examples of the spec hold. -/
theorem c2_duplicate_path_naming (ts p n : String)
    (hfile : path_file_name p = some n)
    (hne : n.data.getLast? ≠ some '.') :
    conflict_duplicate_relative_path p ts =
      .ok (path_dir_part p ++ spec_duplicate_file_name n ts) ∧
    conflict_duplicate_relative_path "Inbox/idea.md" "20260206-220000" =
      .ok "Inbox/idea-conflict-20260206-220000.md" ∧
    conflict_duplicate_relative_path "Inbox/idea" "20260206-220000" =
      .ok "Inbox/idea-conflict-20260206-220000" := by
  refine ⟨?_, by decide, by decide⟩
  unfold conflict_duplicate_relative_path path_set_file_name
  rw [hfile]
  simp only
  rw [duplicate_name_eq_spec n ts hne]

/-- C2 witness: the first spec example, checked through the general
statement. -/
theorem c2_duplicate_path_naming_witness :
    conflict_duplicate_relative_path "Inbox/idea.md" "20260206-220000" =
      .ok (path_dir_part "Inbox/idea.md" ++
        spec_duplicate_file_name "idea.md" "20260206-220000") := by
  exact (c2_duplicate_path_naming "20260206-220000" "Inbox/idea.md" "idea.md"
    (by decide) (by decide)).1

end GitShare
